import Mathlib

/-!
Verification of the query/mutation engine of `langchain_vdms/vectorstores.py`
(the VDMS vector store client).

The Python source is shallowly embedded: property maps become association
lists over a closed `Value` variant, backend round trips become explicit
response parameters, raised exceptions become `Except.error`, and float
distances become exact rationals (`Rat`), with `Dist.inf` standing for the
`np.inf` sentinel.  Each definition mirrors one function of the source file
and keeps its name where Lean allows it.
-/

namespace VDMS

/-- `TEXT_PROPERTY = "content"` (vectorstores.py line 44). -/
def TEXT_PROPERTY : String := "content"

/-- `LANGCHAIN_ID_PROPERTY = "langchain_id"` (line 46). -/
def LANGCHAIN_ID_PROPERTY : String := "langchain_id"

/-- Closed variant for metadata values (spec section 9 closes the dynamic
Python values over string/number/bool/null; `emptyObj` is the literal empty
dict sentinel appearing in `INVALID_METADATA_VALUE`). -/
inductive Value where
  | str (s : String)
  | num (q : ℚ)
  | boolean (b : Bool)
  | null
  | emptyObj
deriving DecidableEq, Repr

/-- `INVALID_METADATA_VALUE = ["Missing property", None, dict()]` (line 52). -/
def INVALID_METADATA_VALUE : List Value := [Value.str "Missing property", Value.null, Value.emptyObj]

/-- `INVALID_DOC_METADATA_KEYS = ["_distance", TEXT_PROPERTY, "blob"]` (line 54). -/
def INVALID_DOC_METADATA_KEYS : List String := ["_distance", TEXT_PROPERTY, "blob"]

/-- `DEFAULT_PROPERTIES = ["_distance", LANGCHAIN_ID_PROPERTY, TEXT_PROPERTY]` (line 53). -/
def DEFAULT_PROPERTIES : List String := ["_distance", LANGCHAIN_ID_PROPERTY, TEXT_PROPERTY]

/-- A raw backend record (descriptor entity): a Python dict modelled as an
association list.  Python dict keys are unique; theorems that need this
assume `(ent.map Prod.fst).Nodup`. -/
abbrev Entity := List (String × Value)

/-- Dict lookup `d[key]` returning `none` where Python raises `KeyError`. -/
def lookupProp (ent : Entity) (key : String) : Option Value :=
  (ent.find? (fun kv => kv.1 = key)).map (fun kv => kv.2)

/-- `langchain_core.documents.Document`: `page_content`, `metadata`, `id`. -/
structure Document where
  page_content : Value
  metadata : Entity
  id : Option Value
deriving DecidableEq, Repr

/-- The metadata filter shared by `descriptor2document` (line 1374) and
`results2documents_and_scores` (line 1347): keep pairs whose key is not
reserved and whose value is not a sentinel. -/
def filterEntityProps (ent : Entity) : Entity :=
  ent.filter (fun kv =>
    decide (kv.1 ∉ INVALID_DOC_METADATA_KEYS) && decide (kv.2 ∉ INVALID_METADATA_VALUE))

/-- `metadata.pop(LANGCHAIN_ID_PROPERTY)` on a dict: removes the (unique)
entry with that key.  Dict keys are unique, so removing every pair with the
key is the same operation. -/
def popIdProp (props : Entity) : Entity :=
  props.filter (fun kv => kv.1 ≠ LANGCHAIN_ID_PROPERTY)

/-- `VDMS.descriptor2document` (lines 1370-1382).  Returns `none` where the
Python raises `KeyError` on `descriptor_entity[TEXT_PROPERTY]` (line 1380);
that exception is not caught inside the function. -/
def descriptor2document (ent : Entity) : Option Document :=
  let metadata := filterEntityProps ent
  let dId := lookupProp metadata LANGCHAIN_ID_PROPERTY
  let metadata := if dId.isSome then popIdProp metadata else metadata
  match lookupProp ent TEXT_PROPERTY with
  | none => none
  | some txt => some { page_content := txt, metadata := metadata, id := dId }

/-- `round(d, 10)` on the reported distance (line 1345), as exact rounding of
a rational to 10 decimal places (the Python half-even tie rule on floats is
abstracted by the standard rounding of `Rat`; no claim depends on ties). -/
def round10 (q : ℚ) : ℚ := (round (q * 10 ^ 10) : ℚ) / 10 ^ 10

/-- One iteration of the loop of `results2documents_and_scores`
(lines 1344-1365).  `lastId` threads the Python local variable `d_id`, which
is only assigned when `LANGCHAIN_ID_PROPERTY` is present: when it is absent
the previous value is silently reused, and on the first record a `NameError`
is raised (modelled as `none`).  Any exception aborts the whole loop. -/
def projectEntity (lastId : Option Value) (ent : Entity) :
    Option (Document × ℚ × Option Value) :=
  match lookupProp ent "_distance" with
  | some (Value.num d) =>
    match lookupProp ent TEXT_PROPERTY with
    | some txt =>
      let props := filterEntityProps ent
      match lookupProp props LANGCHAIN_ID_PROPERTY with
      | some v =>
        some ({ page_content := txt, metadata := popIdProp props, id := some v },
              round10 d, some v)
      | none =>
        match lastId with
        | some v => some ({ page_content := txt, metadata := props, id := some v },
                          round10 d, some v)
        | none => none
    | none => none
  | _ => none

/-- `VDMS.results2documents_and_scores` (lines 1336-1368): the entity loop
sits inside a single `try`, so the first record that raises (missing
`_distance` or content key, unbound `d_id`) ends parsing and the documents
accumulated so far are returned. -/
def results2documents_and_scores (lastId : Option Value) :
    List Entity → List (Document × ℚ)
  | [] => []
  | ent :: rest =>
    match projectEntity lastId ent with
    | none => []
    | some (doc, dist, newLast) => (doc, dist) :: results2documents_and_scores newLast rest

/-- A float distance: `np.inf` sentinel or a finite value (as an exact
rational). -/
inductive Dist where
  | inf
  | val (q : ℚ)
deriving DecidableEq, Repr

/-- An entity as handled by the search path of `get_descriptor_response`:
after `check_valid_response` (lines 2037-2045) every entity carries
`LANGCHAIN_ID_PROPERTY`, and nearest-neighbor results carry `_distance`;
the remaining properties are the metadata map. -/
structure CandEntity where
  id : String
  distance : Dist
  props : Entity
deriving DecidableEq, Repr

/-- The outcome of one backend `FindDescriptor` command: either
`FailedCommand` in the first result object, or a normal result carrying its
entity list (`returned` is its length). -/
inductive CmdResponse where
  | failed
  | ok (entities : List CandEntity)
deriving DecidableEq, Repr

/-- `VDMS_Utils.get_k_candidates` (lines 2200-2219): a `FailedCommand`
response is turned into the empty response list, otherwise the response list
(here: the entity lists of its result objects) is passed through. -/
def get_k_candidates (resp : CmdResponse) : List (List CandEntity) :=
  match resp with
  | CmdResponse.failed => []
  | CmdResponse.ok entities => [entities]

/-- The intersection walk of `get_descriptor_response` (lines 2164-2169):
append each entity whose id is of interest, and after every element test
`len(new_entities) == k_neighbors` and stop when it holds. -/
def intersectWalk (ids : List String) (kNeighbors : Nat) (acc : List CandEntity) :
    List CandEntity → List CandEntity
  | [] => acc
  | e :: rest =>
    let acc2 := if e.id ∈ ids then acc ++ [e] else acc
    if acc2.length = kNeighbors then acc2 else intersectWalk ids kNeighbors acc2 rest

/-- The normalization step of `get_descriptor_response` (lines 2177-2197):
`min_dist` is the constant `0.0`; `max_dist` is the maximum of the finite
distances (`np.inf` excluded) and `max` of an empty sequence raises
`ValueError`; each distance becomes `(d - min_dist) / (max_dist - min_dist)`,
and when that division raises (`max_dist - min_dist == 0`, which also happens
for an infinite numerator) the `except` branch stores `0.0` if
`max_dist == min_dist` and `1.0` otherwise. -/
def normalizeEntities (ents : List CandEntity) : Except String (List CandEntity) :=
  let vals := ents.filterMap (fun e =>
    match e.distance with
    | Dist.val q => some q
    | Dist.inf => none)
  match vals.max? with
  | none => Except.error "ValueError: max() arg is an empty sequence"
  | some maxDist =>
    let minDist : ℚ := 0
    Except.ok (ents.map (fun e =>
      if maxDist - minDist = 0 then
        { e with distance := Dist.val (if maxDist = minDist then 0 else 1) }
      else
        match e.distance with
        | Dist.inf => e
        | Dist.val q => { e with distance := Dist.val ((q - minDist) / (maxDist - minDist)) }))

/-- Modelled from the spec: the normalization rule as the specification
states it (section 4.3 step 3) — `min` and `max` are both computed over the
returned finite distances and each distance maps to
`(d - min) / (max - min)`.  This definition exists only to be compared with
`normalizeEntities`, the embedding of the source. -/
def normalizeEntitiesSpec (ents : List CandEntity) : Except String (List CandEntity) :=
  let vals := ents.filterMap (fun e =>
    match e.distance with
    | Dist.val q => some q
    | Dist.inf => none)
  match vals.max?, vals.min? with
  | some maxDist, some minDist =>
    Except.ok (ents.map (fun e =>
      match e.distance with
      | Dist.inf => e
      | Dist.val q => { e with distance := Dist.val ((q - minDist) / (maxDist - minDist)) }))
  | _, _ => Except.error "no finite distances"

/-- The `if normalize_distance` tail of `get_descriptor_response`
(lines 2177-2198) applied to a response list: when the response list is
empty, `response[0]` raises `IndexError` (line 2182); otherwise the entities
of the first result object are normalized in place. -/
def applyNormalize (normalizeDistance : Bool) (response : List (List CandEntity))
    (warned : Bool) : Except String (Option (List CandEntity) × Bool) :=
  if normalizeDistance then
    match response with
    | [] => Except.error "IndexError: list index out of range"
    | ents :: _ =>
      match normalizeEntities ents with
      | Except.error e => Except.error e
      | Except.ok ents2 => Except.ok (some ents2, warned)
  else
    match response with
    | [] => Except.ok (none, false)
    | ents :: _ => Except.ok (some ents, warned)

/-- `VDMS_Utils.get_descriptor_response` (lines 2091-2198).
`constraints` says whether a filter is present; `constraintResp` is the
backend answer to the phase-1 constraint query (run through `run_vdms_query`,
so a `FailedCommand` object stays in the response list and merely fails the
`command_str in response[0]` test); `candResp` is the backend answer to the
phase-2/unfiltered `get_k_candidates` call.  The returned pair is the entity
list of `response[0]` (`none` when the response list is empty, where callers
reading `response[0]` raise) together with the flag of the
`logger.warning` call of line 2175.  Raised exceptions are `Except.error`:
the `ValueError` of line 2104, the `IndexError` of line 2158 when
`get_k_candidates` returned the empty list, and the errors of the
normalization tail.  The early returns of lines 2149 and 2161 leave the
function before normalization. -/
def getDescriptorResponse (kNeighbors fetchK : Nat) (constraints : Bool)
    (constraintResp candResp : CmdResponse) (normalizeDistance : Bool) :
    Except String (Option (List CandEntity) × Bool) :=
  if kNeighbors ≥ fetchK then
    Except.error ("Provide fetch_k > k; Currently set at " ++ toString fetchK)
  else
    if constraints = false then
      match get_k_candidates candResp with
      | [] => applyNormalize normalizeDistance [] false
      | ents :: rest => applyNormalize normalizeDistance ((ents.take kNeighbors) :: rest) false
    else
      match constraintResp with
      | CmdResponse.failed => Except.ok (none, false)
      | CmdResponse.ok consEnts =>
        if consEnts.length > 0 then
          let idsOfInterest := consEnts.map CandEntity.id
          match get_k_candidates candResp with
          | [] => Except.error "IndexError: list index out of range"
          | ents :: rest =>
            if ents.length = 0 then Except.ok (none, false)
            else
              let newEntities := intersectWalk idsOfInterest kNeighbors [] ents
              applyNormalize normalizeDistance (newEntities :: rest)
                (decide (newEntities.length < kNeighbors))
        else Except.ok (none, false)

/-- The sentinel strip of `query_by_embeddings` (lines 1324-1327): every
returned property map loses its sentinel-valued entries. -/
def stripSentinels (ents : List CandEntity) : List CandEntity :=
  ents.map (fun e =>
    { e with props := e.props.filter (fun kv => decide (kv.2 ∉ INVALID_METADATA_VALUE)) })

/-- `VDMS.query_by_embeddings` for one query embedding (lines 1293-1329).
`get_descriptor_response` is only called when `fetch_k >= k` and is outside
the `try`, so its exceptions propagate to the caller; the `try` block turns
an empty response list into zero results with a logged message. -/
def queryByEmbeddings (k fetchK : Nat) (constraints : Bool)
    (constraintResp candResp : CmdResponse) (normalizeDistance : Bool) :
    Except String (List CandEntity) :=
  if fetchK ≥ k then
    match getDescriptorResponse k fetchK constraints constraintResp candResp normalizeDistance with
    | Except.error e => Except.error e
    | Except.ok (none, _) => Except.ok []
    | Except.ok (some ents, _) => Except.ok (stripSentinels ents)
  else
    Except.ok []

/-- Inner product of two embeddings (similarity of spec section 4.5). -/
def innerProd (u v : List ℚ) : ℚ := (List.zipWith (fun a b => a * b) u v).sum

/-- Modelled from the spec: the greedy MMR objective of section 4.5 for one
candidate, `lambda * sim(query, c) - (1 - lambda) * max sim(c, s)` over the
selected embeddings, the second term being `0` when nothing is selected yet.
The function `maximal_marginal_relevance` lives in `langchain_vdms/utils.py`,
which is not part of src/. -/
def mmrScore (lam : ℚ) (query : List ℚ) (selected : List (List ℚ)) (c : List ℚ) : ℚ :=
  lam * innerProd query c - (1 - lam) * ((selected.map (fun s => innerProd c s)).max?.getD 0)

/-- First maximizer of a scored list: a later element replaces the current
best only when strictly greater, so ties keep the earliest (original
distance-rank) candidate, as section 4.5 requires. -/
def argmaxFirst : List (α × ℚ) → Option α
  | [] => none
  | (a, s) :: rest =>
    some ((rest.foldl (fun best p => if p.2 > best.2 then p else best) (a, s)).1)

/-- Modelled from the spec: the greedy selection loop of
`maximal_marginal_relevance` (spec section 4.5), returning the selected
candidate indices in selection order.  `remaining` pairs each candidate index
with its embedding. -/
def mmrSelect (lam : ℚ) (query : List ℚ) :
    Nat → List (Nat × List ℚ) → List (List ℚ) → List Nat
  | 0, _, _ => []
  | Nat.succ n, remaining, selectedEmbs =>
    match argmaxFirst (remaining.map (fun p => (p, mmrScore lam query selectedEmbs p.2))) with
    | none => []
    | some (i, emb) =>
      i :: mmrSelect lam query n (remaining.filter (fun p => p.1 ≠ i)) (selectedEmbs ++ [emb])

/-- The final projection of `max_marginal_relevance_search_by_vector`
(line 564) and of its `_with_score` twin (line 943):
`[r for i, r in enumerate(candidates) if i in mmr_selected]`. -/
def mmrRerank (mmrSelected : List Nat) (candidates : List α) : List α :=
  (candidates.enum.filter (fun p => p.1 ∈ mmrSelected)).map (fun p => p.2)

/-- `VDMS.max_marginal_relevance_search_by_vector` after the candidate fetch
(lines 544-564): with no returned embedding blobs the result is empty,
otherwise the MMR indices are computed over the candidate embeddings and the
candidate documents are projected through `mmrRerank`. -/
def maxMarginalRelevanceSearchByVector (queryEmb : List ℚ) (k : Nat) (lam : ℚ)
    (candidates : List α) (embeddingList : List (List ℚ)) : List α :=
  if embeddingList.length = 0 then []
  else mmrRerank (mmrSelect lam queryEmb k embeddingList.enum []) candidates

/-- The insert-if-absent loop of `get_props_from_metadata` (lines 1737-1739):
`for k in props.keys(): if k not in self.collection_properties: append`. -/
def foldIns (acc : List String) : List String → List String
  | [] => acc
  | key :: keys => foldIns (if key ∈ acc then acc else acc ++ [key]) keys

/-- Registration of property names into `collection_properties`
(lines 1737-1740): append the unseen names, then `sort()`. -/
def registerProperties (collectionProps keys : List String) : List String :=
  (foldIns collectionProps keys).insertionSort (fun a b => a ≤ b)

/-- `str(v)` applied to a metadata value (line 1733). -/
def valueStr : Value → String
  | Value.str s => s
  | Value.num q => toString q
  | Value.boolean b => if b then "True" else "False"
  | Value.null => "None"
  | Value.emptyObj => "\x7b\x7d"

/-- Dict insertion that keeps insertion order, overwriting an existing key in
place. -/
def setProp (ps : Entity) (key : String) (v : Value) : Entity :=
  if key ∈ ps.map Prod.fst then
    ps.map (fun kv => if kv.1 = key then (key, v) else kv)
  else ps ++ [(key, v)]

/-- `VDMS.get_props_from_metadata` (lines 1715-1741): build the persisted
property map of one item (explicit id first, metadata keys merged without
overwriting, a fallback id taken from `metadata["id"]`, the content text
stored under the reserved key when non-empty) and register every key into
`collection_properties`.  Returns the map and the updated registry. -/
def getPropsFromMetadata (document : String) (metadata : Entity) (id : Option String)
    (collectionProps : List String) : Entity × List String :=
  let props : Entity :=
    match id with
    | none => []
    | some i => [(LANGCHAIN_ID_PROPERTY, Value.str i)]
  let props := metadata.foldl
    (fun ps kv => if kv.1 ∈ ps.map Prod.fst then ps else ps ++ [kv]) props
  let props :=
    if LANGCHAIN_ID_PROPERTY ∈ props.map Prod.fst then props
    else
      match lookupProp metadata "id" with
      | some v => props ++ [(LANGCHAIN_ID_PROPERTY, Value.str (valueStr v))]
      | none => props
  let props := if document ≠ "" then setProp props TEXT_PROPERTY (Value.str document) else props
  (props, registerProperties collectionProps (props.map Prod.fst))

/-- `VDMS.push_update_properties` (lines 1630-1648): diff the client registry
against the backend list; only when elements are missing on the backend is a
replace query issued (returned flag) with the extended, sorted list. -/
def pushUpdateProperties (collectionProps pushedProps : List String) :
    List String × Bool :=
  let missingElements := collectionProps.filter (fun x => x ∉ pushedProps)
  if missingElements.length > 0 then
    ((pushedProps ++ missingElements).insertionSort (fun a b => a ≤ b), true)
  else (pushedProps, false)

/-- The backend answer to the single batched `AddDescriptor` command of
`add_batch`: either a result object carrying `AddDescriptor.status` (the
normal shape, making line 1689 succeed), or a result object without that key
whose `info` field does or does not name `OutOfJournalSpace`
(lines 1690-1691). -/
inductive AddResp where
  | status (s : Int)
  | outOfJournalSpaceInfo
  | otherInfo
deriving DecidableEq, Repr

/-- `VDMS.add_batch` (lines 1650-1713).  All items are folded into ONE
batched `AddDescriptor` command (`all_queries` has length one, line 1672) and
one concatenated blob.  On an `OutOfJournalSpace` info the recovery block
computes `old_batch = len(all_queries) = 1` and
`new_batch_size = old_batch // 2 = 0`, so `range(0, old_batch, 0)` raises
`ValueError` before any retry query is issued, the inner `except` fires, and
the whole add fails with the advisory message of line 1707.  `retry` stands
for the backend answer the (unreachable) halved retry would have received. -/
def add_batch (texts : List String) (embeddings : List (List ℚ))
    (metadatas : List Entity) (ids : List String) (collectionProps : List String)
    (resp : AddResp) (retry : AddResp) : Except String (List String) :=
  if texts.length ≠ embeddings.length then
    Except.error "texts and embeddings expected to be equal length"
  else if texts.length ≠ metadatas.length then
    Except.error "texts and metadatas expected to be equal length"
  else if texts.length ≠ ids.length then
    Except.error "texts and ids expected to be equal length"
  else
    let packed := (List.zip (List.zip (List.zip metadatas embeddings) texts) ids).foldl
      (fun (st : List ℚ × List Entity × List String) item =>
        let meta := item.1.1.1
        let emb := item.1.1.2
        let doc := item.1.2
        let id := item.2
        let pr := getPropsFromMetadata doc meta (some id) st.2.2
        (st.1 ++ emb, st.2.1 ++ [pr.1], pr.2))
      ([], [], collectionProps)
    let batchProperties := packed.2.1
    let allQueries : List (List Entity) := [batchProperties]
    match resp with
    | AddResp.status s => Except.ok (if s = 0 then ids else [])
    | AddResp.otherInfo => Except.ok []
    | AddResp.outOfJournalSpaceInfo =>
      let oldBatch := allQueries.length
      let newBatchSize := oldBatch / 2
      if newBatchSize = 0 then
        Except.error ("Lower batch_size to < " ++ toString oldBatch ++ " and rerun")
      else
        match retry with
        | AddResp.status s => Except.ok (if s = 0 then ids else [])
        | _ => Except.error ("Lower batch_size to < " ++ toString oldBatch ++ " and rerun")

/-- The value of one `FindDescriptor` result object as `batch_delete` builds
and reads it. -/
structure FindDescriptorResult where
  entities : List Entity
  returned : Nat
  status : Int
deriving DecidableEq, Repr

/-- One backend result object as far as `delete` and `batch_delete` inspect
it: whether the key `FindDescriptor` is present and, if so, its value. -/
structure QueryResult where
  findDescriptor : Option FindDescriptorResult
deriving DecidableEq, Repr

/-- The accumulation loop of `batch_delete` (lines 1772-1776 and 1807-1811):
concatenate the entities of every result object that carries a
`FindDescriptor` key. -/
def collectFD (response : List QueryResult) : List Entity :=
  (response.filterMap (fun r => r.findDescriptor)).foldl
    (fun acc r => acc ++ r.entities) []

/-- The ids windows of `batch_delete` (line 1778):
`range(0, len(ids), batch_size)` slices. -/
def chunksOf (batchSize : Nat) : List α → List (List α)
  | [] => []
  | a :: rest =>
    if h : batchSize = 0 then []
    else ((a :: rest).take batchSize) :: chunksOf batchSize ((a :: rest).drop batchSize)
  termination_by l => l.length
  decreasing_by
    simp only [List.length_drop, List.length_cons]
    omega

/-- `VDMS.batch_delete` (lines 1743-1816).  `new_response` is pre-seeded with
a `FindDescriptor` entry (lines 1750-1754) and every path returns it (the
matching entities found by the backend, supplied here by `oracle` per query
window, are merely folded into it).  With a non-empty id list and
`batch_size = 0` the Python `range` raises `ValueError`. -/
def batch_delete (ids : Option (List String)) (batchSize : Nat)
    (oracle : List String → List QueryResult) (allOracle : List QueryResult) :
    Except String (List QueryResult) :=
  match ids with
  | none =>
    let ents := collectFD allOracle
    Except.ok [{ findDescriptor := some { entities := ents, returned := ents.length, status := 0 } }]
  | some idList =>
    if batchSize = 0 ∧ idList ≠ [] then
      Except.error "ValueError: range() arg 3 must not be zero"
    else
      let ents := (chunksOf batchSize idList).foldl
        (fun acc batchIds => acc ++ collectFD (oracle batchIds)) []
      Except.ok [{ findDescriptor := some { entities := ents, returned := ents.length, status := 0 } }]

/-- `VDMS.delete` (lines 285-318): run `batch_delete` (the `_deletion`
constraint is always folded into the constraint dict), issue the reindex
query, and return whether `"FindDescriptor" in response[0]`. -/
def delete (ids : Option (List String)) (constraints : Option Entity) (batchSize : Nat)
    (oracle : List String → List QueryResult) (allOracle : List QueryResult) :
    Except String Bool :=
  match batch_delete ids batchSize oracle allOracle with
  | Except.error e => Except.error e
  | Except.ok response =>
    Except.ok (match response.head? with
      | some r => r.findDescriptor.isSome
      | none => false)

instance {ε α : Type} [DecidableEq ε] [DecidableEq α] : DecidableEq (Except ε α) := fun a b =>
  match a, b with
  | Except.error e, Except.error f =>
    if h : e = f then isTrue (by rw [h]) else isFalse (fun c => by injection c; exact h (by assumption))
  | Except.error _, Except.ok _ => isFalse (fun c => Except.noConfusion c)
  | Except.ok _, Except.error _ => isFalse (fun c => Except.noConfusion c)
  | Except.ok x, Except.ok y =>
    if h : x = y then isTrue (by rw [h]) else isFalse (fun c => by injection c; exact h (by assumption))

/-! Concrete sample data used by witnesses and counterexamples. -/

/-- Sample candidate entity with id `a`. -/
def entA : CandEntity := { id := "a", distance := Dist.val 1, props := [] }

/-- Sample candidate entity with id `b`. -/
def entB : CandEntity := { id := "b", distance := Dist.val 2, props := [] }

/-- Sample candidate entity with id `c`. -/
def entC : CandEntity := { id := "c", distance := Dist.val 3, props := [] }

/-! ### C10 — delete always returns True -/

/-- Claim C10: for every input (any ids list, constraints, or neither, and a
backend returning anything at all), `delete` returns `True`, because the
response `batch_delete` builds is pre-seeded with a `FindDescriptor` entry.
(`batch_size = 0` is excluded: there the Python `range` raises.) -/
theorem delete_always_true (ids : Option (List String)) (constraints : Option Entity)
    (batchSize : Nat) (oracle : List String → List QueryResult)
    (allOracle : List QueryResult) (h : batchSize ≠ 0) :
    delete ids constraints batchSize oracle allOracle = Except.ok true := by
  cases ids with
  | none => rfl
  | some l =>
    unfold delete batch_delete
    simp [h]

/-- Witness for C10 at a concrete input: deleting two ids that the backend
does not even know (the oracle returns no matching result objects) still
returns `True`. -/
theorem delete_always_true_witness :
    delete (some ["x", "y"]) none 500 (fun _ => []) [] = Except.ok true :=
  delete_always_true (some ["x", "y"]) none 500 (fun _ => []) [] (by decide)

/-! ### C5 — reads never throw -/

/-- Claim C5 (code bug demonstration): a filtered similarity search whose
phase-2 nearest-neighbor command fails does NOT return empty — the empty
response list built by `get_k_candidates` is immediately indexed as
`response[0]` (line 2158), so an `IndexError` propagates out of
`query_by_embeddings` to the caller, contradicting the policy that read
paths never throw. -/
theorem filtered_read_failed_command_raises :
    queryByEmbeddings 1 2 true (CmdResponse.ok [entA]) CmdResponse.failed false
      = Except.error "IndexError: list index out of range" := by
  rfl

/-! ### C4 — overflow recovery never actually retries -/

/-- Claim C4 (code bug demonstration): `add_batch` folds every item into ONE
batched `AddDescriptor` command, so on `OutOfJournalSpace` the recovery code
computes `old_batch = len(all_queries) = 1` and `new_batch_size = 0`;
`range(0, 1, 0)` raises before any halved retry is issued and the add fails
with the advisory message — here shown for a two-item batch and ANY would-be
retry outcome (even a successful one), proving no retry is ever consulted. -/
theorem add_batch_overflow_never_retries :
    (add_batch ["t1", "t2"] [[1], [2]] [[], []] ["i1", "i2"] []
        AddResp.outOfJournalSpaceInfo (AddResp.status 0)
      = Except.error "Lower batch_size to < 1 and rerun")
  ∧ (add_batch ["t1", "t2"] [[1], [2]] [[], []] ["i1", "i2"] []
        AddResp.outOfJournalSpaceInfo AddResp.otherInfo
      = Except.error "Lower batch_size to < 1 and rerun") := by
  exact ⟨rfl, rfl⟩

/-! ### C2 — distance normalization -/

/-- Sample entity carrying distance 1/10. -/
def entN1 : CandEntity := { id := "1", distance := Dist.val (1 / 10), props := [] }

/-- Sample entity carrying distance 3/10. -/
def entN2 : CandEntity := { id := "2", distance := Dist.val (3 / 10), props := [] }

/-- Sample entity carrying distance 5/10. -/
def entN3 : CandEntity := { id := "3", distance := Dist.val (1 / 2), props := [] }

/-- Counterexample to C2: the source fixes `min_dist = 0.0` (line 2178)
instead of computing the minimum, so distances `[0.1, 0.3, 0.5]` normalize
to `[0.2, 0.6, 1.0]`, not to the claimed `[0.0, 0.5, 1.0]` — which is what
the spec formula (embedded as `normalizeEntitiesSpec`) produces. -/
theorem normalize_min_is_zero_counterexample :
    normalizeEntities [entN1, entN2, entN3]
      = Except.ok [{ id := "1", distance := Dist.val (1 / 5), props := [] },
                   { id := "2", distance := Dist.val (3 / 5), props := [] },
                   { id := "3", distance := Dist.val 1, props := [] }]
  ∧ normalizeEntitiesSpec [entN1, entN2, entN3]
      = Except.ok [{ id := "1", distance := Dist.val 0, props := [] },
                   { id := "2", distance := Dist.val (1 / 2), props := [] },
                   { id := "3", distance := Dist.val 1, props := [] }]
  ∧ normalizeEntities [entN1, entN2, entN3] ≠ normalizeEntitiesSpec [entN1, entN2, entN3] := by
  have h1 : normalizeEntities [entN1, entN2, entN3]
      = Except.ok [{ id := "1", distance := Dist.val (1 / 5), props := [] },
                   { id := "2", distance := Dist.val (3 / 5), props := [] },
                   { id := "3", distance := Dist.val 1, props := [] }] := by
    simp [normalizeEntities, entN1, entN2, entN3, List.max?, max_def]
    norm_num
  have h2 : normalizeEntitiesSpec [entN1, entN2, entN3]
      = Except.ok [{ id := "1", distance := Dist.val 0, props := [] },
                   { id := "2", distance := Dist.val (1 / 2), props := [] },
                   { id := "3", distance := Dist.val 1, props := [] }] := by
    simp [normalizeEntitiesSpec, entN1, entN2, entN3, List.max?, List.min?, max_def, min_def]
    norm_num
  refine ⟨h1, h2, ?_⟩
  rw [h1, h2]
  intro c
  injection c with c
  simp only [List.cons.injEq, CandEntity.mk.injEq, Dist.val.injEq] at c
  exact absurd c.1.2.1 (by norm_num)

/-- Claim C2 (amended): with distance normalization enabled, `min` is NOT
computed — `min_dist` is the constant `0.0` — so every finite distance `d`
is mapped to `d / max` where `max` ranges over the finite returned distances
(`+inf` excluded and left in place), provided `max` is nonzero. -/
theorem normalize_divides_by_max (ents : List CandEntity) (M : ℚ)
    (hM : (ents.filterMap (fun e => match e.distance with
        | Dist.val q => some q
        | Dist.inf => none)).max? = some M)
    (hM0 : M ≠ 0) :
    normalizeEntities ents = Except.ok (ents.map (fun e =>
      match e.distance with
      | Dist.inf => e
      | Dist.val q => { e with distance := Dist.val (q / M) })) := by
  simp only [normalizeEntities, hM, sub_zero]
  simp [hM0]

/-- Witness for C2 (amended) at the concrete distances of the claim:
`[0.1, 0.3, 0.5]` with maximum `0.5` normalizes to each distance divided by
`0.5`. -/
theorem normalize_divides_by_max_witness :
    normalizeEntities [entN1, entN2, entN3] = Except.ok ([entN1, entN2, entN3].map (fun e =>
      match e.distance with
      | Dist.inf => e
      | Dist.val q => { e with distance := Dist.val (q / (1 / 2)) })) :=
  normalize_divides_by_max [entN1, entN2, entN3] (1 / 2)
    (by simp [entN1, entN2, entN3, List.max?, max_def]; norm_num)
    (by norm_num)

/-! ### C1 — the fetch_k precondition -/

/-- Counterexample to C1: the claim says every call with `fetch_k >= k`
proceeds and issues the nearest-neighbor query; but with `fetch_k == k == 3`
(and a healthy backend holding three candidates) `get_descriptor_response`
raises `ValueError` at line 2104 (`k_neighbors >= fetch_k`), which
`query_by_embeddings` does not catch (the call at line 1297 sits outside its
`try`), so the search fails instead of proceeding. -/
theorem search_fetchk_eq_k_raises :
    queryByEmbeddings 3 3 false CmdResponse.failed (CmdResponse.ok [entA, entB, entC]) false
      = Except.error "Provide fetch_k > k; Currently set at 3" := rfl

/-- Claim C1 (amended): the search proceeds only when `fetch_k > k` (it then
issues the query and returns at most `k` results); when `fetch_k == k` it
fails with the `ValueError` of line 2104 even though `fetch_k >= k`; when
`fetch_k < k` the query is skipped and the empty list is returned with a
logged message. -/
theorem search_requires_fetchk_gt_k (k fetchK : Nat) (constraints : Bool)
    (constraintResp candResp : CmdResponse) (normalizeDistance : Bool)
    (cand : List CandEntity) :
    (fetchK = k →
      queryByEmbeddings k fetchK constraints constraintResp candResp normalizeDistance
        = Except.error ("Provide fetch_k > k; Currently set at " ++ toString fetchK))
  ∧ (fetchK < k →
      queryByEmbeddings k fetchK constraints constraintResp candResp normalizeDistance
        = Except.ok [])
  ∧ (k < fetchK →
      queryByEmbeddings k fetchK false constraintResp (CmdResponse.ok cand) false
        = Except.ok (stripSentinels (cand.take k))
      ∧ (stripSentinels (cand.take k)).length ≤ k) := by
  refine ⟨?_, ?_, ?_⟩
  · intro h
    subst h
    unfold queryByEmbeddings getDescriptorResponse
    simp
  · intro h
    unfold queryByEmbeddings
    rw [if_neg (by omega)]
  · intro h
    refine ⟨?_, ?_⟩
    · unfold queryByEmbeddings getDescriptorResponse get_k_candidates applyNormalize
      rw [if_pos (by omega : fetchK ≥ k), if_neg (by omega : ¬ k ≥ fetchK)]
      simp
    · simp only [stripSentinels, List.length_map, List.length_take]
      omega

/-- Witness for C1 (amended) at `k = 2 < fetch_k = 3`: the search proceeds
and returns the first two of the three candidates. -/
theorem search_requires_fetchk_gt_k_witness :
    queryByEmbeddings 2 3 false CmdResponse.failed (CmdResponse.ok [entA, entB, entC]) false
      = Except.ok (stripSentinels ([entA, entB, entC].take 2))
    ∧ (stripSentinels ([entA, entB, entC].take 2)).length ≤ 2 :=
  (search_requires_fetchk_gt_k 2 3 false CmdResponse.failed
    (CmdResponse.ok [entA, entB, entC]) false [entA, entB, entC]).2.2 (by omega)

/-! ### C6 — MMR output order -/

/-- Projecting the enumerated-then-filtered elements of a list yields a
sublist of it (so the original element order is preserved). -/
theorem filter_enumFrom_sublist {α : Type} (p : Nat × α → Bool) (l : List α) :
    ∀ n : Nat, (((l.enumFrom n).filter p).map (fun q => q.2)).Sublist l := by
  induction l with
  | nil => intro n; simp
  | cons a rest ih =>
    intro n
    simp only [List.enumFrom, List.filter]
    by_cases hp : p (n, a)
    · simp only [hp, List.map]
      exact List.Sublist.cons₂ a (ih (n + 1))
    · simp only [Bool.not_eq_true] at hp
      simp only [hp]
      exact List.Sublist.cons a (ih (n + 1))

/-- Counterexample to C6: with query `[1, 0]`, candidate embeddings
`[[0, 1], [1, 0]]` and `lambda = 1`, the greedy MMR selection order is
`[1, 0]` (candidate 1 is picked first), so output in selection order would
be `["d1", "d0"]`; but the projection of line 564 keeps the original
candidate order and returns `["d0", "d1"]`. -/
theorem mmr_selection_order_counterexample :
    mmrSelect 1 [1, 0] 2 (([[0, 1], [1, 0]] : List (List ℚ)).enum) [] = [1, 0]
  ∧ maxMarginalRelevanceSearchByVector ([1, 0] : List ℚ) 2 1 ["d0", "d1"] [[0, 1], [1, 0]]
      = ["d0", "d1"]
  ∧ (["d0", "d1"] : List String) ≠ ["d1", "d0"] := by
  refine ⟨?_, ?_, by decide⟩
  · norm_num [mmrSelect, argmaxFirst, mmrScore, innerProd, List.enum, List.enumFrom]
  · norm_num [maxMarginalRelevanceSearchByVector, mmrRerank, mmrSelect, argmaxFirst,
      mmrScore, innerProd, List.enum, List.enumFrom]

/-- Claim C6 (amended): the output of an MMR search is the subsequence of
the distance-ordered candidate list at the MMR-selected indices — it
preserves the original distance order, not the greedy selection order. -/
theorem mmr_output_preserves_candidate_order {α : Type} (queryEmb : List ℚ) (k : Nat)
    (lam : ℚ) (candidates : List α) (embeddingList : List (List ℚ)) :
    (maxMarginalRelevanceSearchByVector queryEmb k lam candidates embeddingList).Sublist
      candidates := by
  unfold maxMarginalRelevanceSearchByVector
  by_cases h : embeddingList.length = 0
  · simp [h]
  · rw [if_neg h]
    exact filter_enumFrom_sublist _ candidates 0

/-! ### C3 — the filtered-search walk -/

/-- The intersection walk with a break check after every element equals
filter-then-take as long as the accumulator is still short of `k` — in
particular, started empty with `k >= 1`, it keeps the first `k` matches in
candidate order. -/
theorem intersectWalk_eq_filter_take (ids : List String) (k : Nat) :
    ∀ (l acc : List CandEntity), acc.length < k →
      intersectWalk ids k acc l
        = acc ++ (l.filter (fun e => e.id ∈ ids)).take (k - acc.length) := by
  intro l
  induction l with
  | nil =>
    intro acc h
    simp [intersectWalk]
  | cons e rest ih =>
    intro acc h
    rw [intersectWalk]
    by_cases hm : e.id ∈ ids
    · rw [if_pos hm]
      by_cases hk : (acc ++ [e]).length = k
      · rw [if_pos hk]
        have hlen : k - acc.length = 1 := by
          simp only [List.length_append, List.length_singleton] at hk
          omega
        rw [hlen]
        simp [List.filter_cons, hm]
      · rw [if_neg hk]
        have h2 : (acc ++ [e]).length < k := by
          simp only [List.length_append, List.length_singleton] at hk ⊢
          omega
        rw [ih _ h2]
        have hlen : k - acc.length = (k - (acc ++ [e]).length) + 1 := by
          simp only [List.length_append, List.length_singleton] at h2 ⊢
          omega
        rw [hlen]
        simp [List.filter_cons, hm, List.take_succ_cons, List.append_assoc]
    · rw [if_neg hm]
      have hk : ¬ acc.length = k := by omega
      rw [if_neg hk, ih acc h]
      simp [List.filter_cons, hm]

/-- Counterexample to C3: when the phase-1 constraint query matches nothing
(`returned == 0`), `get_descriptor_response` returns empty at line 2149
BEFORE the walk, so zero (< k = 1) matches are returned and the
`logger.warning` of line 2175 recommending a larger `fetch_k` is never
reached — the warned flag is `false`, contradicting the claim that a warning
is logged whenever fewer than `k` matches are found. -/
theorem filtered_no_match_no_warning_counterexample :
    getDescriptorResponse 1 2 true (CmdResponse.ok []) (CmdResponse.ok [entA]) false
      = Except.ok (none, false) := rfl

/-- Claim C3 (amended): for `k >= 1`, when both phase queries return
entities the filtered search walks the distance-ordered top `fetch_k` list,
keeps exactly the entities whose id is in the constraint-matching id set,
stops once `k` matches are collected, and returns the partial result with
the warning flag set exactly when fewer than `k` matches were found; but
when either phase query returns no entities the empty result is returned
early, WITHOUT the warning — and never an error. -/
theorem filtered_search_walk (k fetchK : Nat) (consEnts cand : List CandEntity)
    (h1 : 1 ≤ k) (h2 : k < fetchK) (hc : consEnts ≠ []) :
    getDescriptorResponse k fetchK true (CmdResponse.ok consEnts) (CmdResponse.ok cand) false
      = if cand.length = 0 then Except.ok (none, false)
        else Except.ok
          (some ((cand.filter (fun e => e.id ∈ consEnts.map CandEntity.id)).take k),
           decide (((cand.filter (fun e => e.id ∈ consEnts.map CandEntity.id)).take k).length < k)) := by
  unfold getDescriptorResponse get_k_candidates
  rw [if_neg (by omega : ¬ k ≥ fetchK)]
  have hlen : consEnts.length > 0 := List.length_pos.mpr hc
  simp only [Bool.true_eq_false, if_false, hlen, if_true]
  by_cases hcand : cand.length = 0
  · rw [if_pos hcand, if_pos hcand]
  · rw [if_neg hcand, if_neg hcand]
    rw [intersectWalk_eq_filter_take _ _ _ [] (by simp only [List.length_nil]; omega)]
    simp [applyNormalize]

/-- Witness for C3 (amended): ids of interest `["a"]`, candidates
`[entB, entA]`, `k = 1`: the walk keeps `entA` only and no warning is
needed. -/
theorem filtered_search_walk_witness :
    getDescriptorResponse 1 2 true (CmdResponse.ok [entA]) (CmdResponse.ok [entB, entA]) false
      = if ([entB, entA] : List CandEntity).length = 0 then Except.ok (none, false)
        else Except.ok
          (some ((([entB, entA] : List CandEntity).filter
              (fun e => e.id ∈ [entA].map CandEntity.id)).take 1),
           decide (((([entB, entA] : List CandEntity).filter
              (fun e => e.id ∈ [entA].map CandEntity.id)).take 1).length < 1)) :=
  filtered_search_walk 1 2 [entA] [entB, entA] (by omega) (by omega) (by decide)

/-! ### C7 — projection of malformed records -/

/-- Sample raw record: well formed. -/
def entDoc1 : Entity :=
  [("_distance", Value.num 1), ("content", Value.str "foo"), ("langchain_id", Value.str "1")]

/-- Sample raw record: the content key is absent. -/
def entDocBad : Entity := [("_distance", Value.num 2), ("langchain_id", Value.str "2")]

/-- Sample raw record: well formed. -/
def entDoc2 : Entity :=
  [("_distance", Value.num 3), ("content", Value.str "baz"), ("langchain_id", Value.str "3")]

/-- Counterexample to C7: the `except` of `results2documents_and_scores`
sits OUTSIDE the entity loop, so a record with an absent content key does
not just drop itself — it aborts parsing, and the well-formed record behind
it is dropped too: of `[good, bad, good]` only the first document is
returned (the claim requires the two well-formed records, length 2). -/
theorem results2_truncates_at_malformed_counterexample :
    results2documents_and_scores none [entDoc1, entDocBad, entDoc2]
      = [({ page_content := Value.str "foo", metadata := [], id := some (Value.str "1") },
          round10 1)]
  ∧ (results2documents_and_scores none [entDoc1, entDocBad, entDoc2]).length = 1 := by
  refine ⟨rfl, rfl⟩

/-- A raw record that parses successfully whatever id value is threaded:
it has a numeric `_distance`, a content value, and its own id property
surviving the sentinel filter. -/
def entityOk (ent : Entity) : Prop :=
  (∃ d : ℚ, lookupProp ent "_distance" = some (Value.num d))
  ∧ (∃ t, lookupProp ent TEXT_PROPERTY = some t)
  ∧ (∃ v, lookupProp (filterEntityProps ent) LANGCHAIN_ID_PROPERTY = some v)

/-- Claim C7 (amended): in `results2documents_and_scores` a record whose
content key is absent does not propagate an error, but it ends parsing: the
documents of the well-formed records BEFORE it are returned, and it together
with ALL records after it (well formed or not) is dropped with a logged
warning. -/
theorem results2_returns_prefix_before_malformed (pre : List Entity) (bad : Entity)
    (rest : List Entity) (lastId : Option Value)
    (hpre : ∀ e ∈ pre, entityOk e) (hbad : lookupProp bad TEXT_PROPERTY = none) :
    results2documents_and_scores lastId (pre ++ bad :: rest)
      = results2documents_and_scores lastId pre := by
  induction pre generalizing lastId with
  | nil =>
    simp only [List.nil_append]
    have hproj : projectEntity lastId bad = none := by
      cases hdist : lookupProp bad "_distance" with
      | none => simp [projectEntity, hdist]
      | some v => cases v <;> simp [projectEntity, hdist, hbad]
    simp [results2documents_and_scores, hproj]
  | cons e pre ih =>
    obtain ⟨⟨d, hd⟩, ⟨t, ht⟩, ⟨v, hv⟩⟩ := hpre e (List.mem_cons_self e pre)
    have hstep : projectEntity lastId e
        = some ({ page_content := t, metadata := popIdProp (filterEntityProps e),
                  id := some v }, round10 d, some v) := by
      simp [projectEntity, hd, ht, hv]
    simp only [List.cons_append, results2documents_and_scores, hstep]
    exact congrArg _ (ih (some v) (fun x hx => hpre x (List.mem_cons_of_mem _ hx)))

/-- Witness for C7 (amended): with the well-formed `entDoc1` before the
malformed `entDocBad`, parsing returns exactly the documents of the prefix
`[entDoc1]`, dropping `entDocBad` and everything behind it. -/
theorem results2_returns_prefix_before_malformed_witness :
    results2documents_and_scores none ([entDoc1] ++ entDocBad :: [entDoc2])
      = results2documents_and_scores none [entDoc1] :=
  results2_returns_prefix_before_malformed [entDoc1] entDocBad [entDoc2] none
    (by
      intro e he
      simp only [List.mem_singleton] at he
      subst he
      exact ⟨⟨1, rfl⟩, ⟨Value.str "foo", rfl⟩, ⟨Value.str "1", rfl⟩⟩)
    rfl

/-! ### C8 — metadata invariants of produced documents -/

/-- On a map with unique keys, lookup of a present pair finds its value. -/
theorem lookupProp_eq_of_mem : ∀ (l : Entity) (k : String) (v : Value),
    (l.map Prod.fst).Nodup → (k, v) ∈ l → lookupProp l k = some v := by
  intro l
  induction l with
  | nil => intro k v _ hm; cases hm
  | cons kv rest ih =>
    intro k v hn hm
    rw [List.map_cons] at hn
    have hn2 := List.nodup_cons.mp hn
    rcases List.mem_cons.mp hm with h | h
    · subst h
      simp [lookupProp, List.find?]
    · have hk : ¬ kv.1 = k := by
        intro hkk
        exact hn2.1 (hkk ▸ List.mem_map_of_mem Prod.fst h)
      simp only [lookupProp, List.find?, decide_eq_false hk]
      exact ih k v hn2.2 h

/-- Claim C8: every document produced by `descriptor2document` has metadata
free of the reserved keys (`_distance`, `content`, `blob`), free of the
identity key, and free of sentinel values; and a non-sentinel identity
property of the raw record is surfaced as `Document.id`.  The raw record is
a Python dict, so its keys are unique. -/
theorem document_metadata_invariants (ent : Entity) (doc : Document)
    (hn : (ent.map Prod.fst).Nodup) (h : descriptor2document ent = some doc) :
    (∀ kv ∈ doc.metadata,
        kv.1 ∉ INVALID_DOC_METADATA_KEYS ∧ kv.1 ≠ LANGCHAIN_ID_PROPERTY
          ∧ kv.2 ∉ INVALID_METADATA_VALUE)
  ∧ (∀ v : Value, (LANGCHAIN_ID_PROPERTY, v) ∈ ent → v ∉ INVALID_METADATA_VALUE →
        doc.id = some v) := by
  simp only [descriptor2document] at h
  cases hc : lookupProp ent TEXT_PROPERTY with
  | none => rw [hc] at h; cases h
  | some txt =>
    rw [hc] at h
    injection h with h
    subst h
    have hmemf : ∀ kv ∈ filterEntityProps ent,
        kv ∈ ent ∧ kv.1 ∉ INVALID_DOC_METADATA_KEYS ∧ kv.2 ∉ INVALID_METADATA_VALUE := by
      intro kv hkv
      have hsp := List.mem_filter.mp hkv
      have hb := (Bool.and_eq_true _ _).mp hsp.2
      exact ⟨hsp.1, of_decide_eq_true hb.1, of_decide_eq_true hb.2⟩
    constructor
    · intro kv hkv
      cases hcase : lookupProp (filterEntityProps ent) LANGCHAIN_ID_PROPERTY with
      | some w =>
        rw [hcase] at hkv
        simp only [Option.isSome_some, if_true] at hkv
        have hp := List.mem_filter.mp hkv
        have hf := hmemf kv hp.1
        exact ⟨hf.2.1, of_decide_eq_true hp.2, hf.2.2⟩
      | none =>
        rw [hcase] at hkv
        simp only [Option.isSome_none, Bool.false_eq_true, if_false] at hkv
        have hf := hmemf kv hkv
        refine ⟨hf.2.1, ?_, hf.2.2⟩
        intro hkey
        have hnone2 : ((filterEntityProps ent).find?
            (fun kv => kv.1 = LANGCHAIN_ID_PROPERTY)).map (fun kv => kv.2) = none := hcase
        cases hfind : (filterEntityProps ent).find? (fun kv => kv.1 = LANGCHAIN_ID_PROPERTY) with
        | some a =>
          rw [hfind] at hnone2
          simp at hnone2
        | none =>
          have hnp := List.find?_eq_none.mp hfind kv hkv
          exact hnp (decide_eq_true hkey)
    · intro v hv hval
      have hidmem : (LANGCHAIN_ID_PROPERTY, v) ∈ filterEntityProps ent := by
        refine List.mem_filter.mpr ⟨hv, ?_⟩
        refine (Bool.and_eq_true _ _).mpr ⟨?_, ?_⟩
        · show decide (LANGCHAIN_ID_PROPERTY ∉ INVALID_DOC_METADATA_KEYS) = true
          decide
        · show decide (v ∉ INVALID_METADATA_VALUE) = true
          exact decide_eq_true hval
      have hnf : ((filterEntityProps ent).map Prod.fst).Nodup :=
        List.Nodup.sublist (List.Sublist.map Prod.fst (List.filter_sublist ent)) hn
      have hlook : lookupProp (filterEntityProps ent) LANGCHAIN_ID_PROPERTY = some v :=
        lookupProp_eq_of_mem _ _ _ hnf hidmem
      simp [hlook]

/-- The document `descriptor2document` produces from `entDoc1`. -/
def docFoo : Document :=
  { page_content := Value.str "foo", metadata := [], id := some (Value.str "1") }

/-- Witness for C8 at a concrete raw record: the produced document has empty
metadata (both reserved keys and the identity key are stripped) and carries
the identity value as its id. -/
theorem document_metadata_invariants_witness :
    (∀ kv ∈ docFoo.metadata,
        kv.1 ∉ INVALID_DOC_METADATA_KEYS ∧ kv.1 ≠ LANGCHAIN_ID_PROPERTY
          ∧ kv.2 ∉ INVALID_METADATA_VALUE)
  ∧ (∀ v : Value, (LANGCHAIN_ID_PROPERTY, v) ∈ entDoc1 → v ∉ INVALID_METADATA_VALUE →
        docFoo.id = some v) :=
  document_metadata_invariants entDoc1 docFoo (by decide) rfl

/-! ### C9 — schema registry monotonicity -/

/-- Membership in the insert-if-absent fold is the union of memberships. -/
theorem mem_foldIns (x : String) : ∀ (P acc : List String),
    x ∈ foldIns acc P ↔ x ∈ acc ∨ x ∈ P := by
  intro P
  induction P with
  | nil => intro acc; simp [foldIns]
  | cons key keys ih =>
    intro acc
    rw [foldIns]
    by_cases hk : key ∈ acc
    · rw [if_pos hk, ih]
      simp only [List.mem_cons]
      constructor
      · rintro (h | h)
        · exact Or.inl h
        · exact Or.inr (Or.inr h)
      · rintro (h | h | h)
        · exact Or.inl h
        · exact Or.inl (h ▸ hk)
        · exact Or.inr h
    · rw [if_neg hk, ih]
      simp only [List.mem_append, List.mem_singleton, List.mem_cons]
      tauto

/-- The insert-if-absent fold keeps the accumulator free of duplicates. -/
theorem nodup_foldIns : ∀ (P acc : List String), acc.Nodup → (foldIns acc P).Nodup := by
  intro P
  induction P with
  | nil => intro acc h; exact h
  | cons key keys ih =>
    intro acc h
    rw [foldIns]
    by_cases hk : key ∈ acc
    · rw [if_pos hk]
      exact ih acc h
    · rw [if_neg hk]
      refine ih _ ?_
      simp [List.nodup_append, h, hk]

/-- The insert-if-absent fold only appends: accumulators with the same
membership receive the same appended tail. -/
theorem foldIns_mem_congr : ∀ (P a b : List String), (∀ x, x ∈ a ↔ x ∈ b) →
    ∃ t, foldIns a P = a ++ t ∧ foldIns b P = b ++ t := by
  intro P
  induction P with
  | nil => intro a b _; exact ⟨[], by simp [foldIns], by simp [foldIns]⟩
  | cons key keys ih =>
    intro a b h
    rw [foldIns, foldIns]
    by_cases hk : key ∈ a
    · rw [if_pos hk, if_pos ((h key).mp hk)]
      exact ih a b h
    · rw [if_neg hk, if_neg (fun c => hk ((h key).mpr c))]
      obtain ⟨t, h1, h2⟩ := ih (a ++ [key]) (b ++ [key]) (by intro x; simp [h x])
      refine ⟨key :: t, ?_, ?_⟩
      · rw [h1, List.append_assoc]
        rfl
      · rw [h2, List.append_assoc]
        rfl

/-- If every key is already present, the insert-if-absent fold is the
identity. -/
theorem foldIns_of_subset : ∀ (P acc : List String), (∀ x ∈ P, x ∈ acc) →
    foldIns acc P = acc := by
  intro P
  induction P with
  | nil => intro acc _; rfl
  | cons key keys ih =>
    intro acc h
    rw [foldIns, if_pos (h key (List.mem_cons_self key keys))]
    exact ih acc (fun x hx => h x (List.mem_cons_of_mem _ hx))

/-- Sorting an already sorted list changes nothing. -/
theorem sortL_eq_of_sorted (l : List String) (h : l.Sorted (fun a b => a ≤ b)) :
    l.insertionSort (fun a b => a ≤ b) = l :=
  List.eq_of_perm_of_sorted (List.perm_insertionSort _ l) (List.sorted_insertionSort _ l) h

/-- Claim C9: the known property set of a collection is append-only and kept
sorted — registering `P1` then `P2` (on a fresh registry) yields exactly the
sorted duplicate-free union of `P1` and `P2`; registering never removes a
known property; re-registering a subset of the known (sorted) properties
leaves the registry unchanged; and `push_update_properties` issues NO
backend replace when the backend already knows every client property. -/
theorem schema_registry_monotone (P1 P2 P known pushed : List String) :
    ((∀ x, x ∈ registerProperties (registerProperties [] P1) P2 ↔ x ∈ P1 ∨ x ∈ P2)
      ∧ (registerProperties (registerProperties [] P1) P2).Sorted (fun a b => a ≤ b)
      ∧ (registerProperties (registerProperties [] P1) P2).Nodup)
  ∧ (∀ x ∈ known, x ∈ registerProperties known P)
  ∧ ((∀ x ∈ P, x ∈ known) → known.Sorted (fun a b => a ≤ b) →
      registerProperties known P = known)
  ∧ ((∀ x ∈ known, x ∈ pushed) → pushUpdateProperties known pushed = (pushed, false)) := by
  refine ⟨⟨?_, ?_, ?_⟩, ?_, ?_, ?_⟩
  · intro x
    unfold registerProperties
    rw [(List.perm_insertionSort _ _).mem_iff, mem_foldIns,
      (List.perm_insertionSort _ _).mem_iff, mem_foldIns]
    simp
  · exact List.sorted_insertionSort _ _
  · refine (List.perm_insertionSort _ _).nodup_iff.mpr ?_
    refine nodup_foldIns _ _ ?_
    exact (List.perm_insertionSort _ _).nodup_iff.mpr (nodup_foldIns _ _ List.nodup_nil)
  · intro x hx
    unfold registerProperties
    rw [(List.perm_insertionSort _ _).mem_iff, mem_foldIns]
    exact Or.inl hx
  · intro hsub hsort
    unfold registerProperties
    rw [foldIns_of_subset _ _ hsub]
    exact sortL_eq_of_sorted known hsort
  · intro hsub
    unfold pushUpdateProperties
    have hnil : known.filter (fun x => x ∉ pushed) = [] := by
      rw [List.filter_eq_nil]
      intro a ha
      simp [hsub a ha]
    rw [hnil]
    rfl

/-- Witness for C9: re-registering the known property `a` over the registry
`[a]` is a no-op, and pushing against a backend that already knows `a` (and
more) issues no replace query. -/
theorem schema_registry_monotone_witness :
    registerProperties ["a"] ["a"] = ["a"]
  ∧ pushUpdateProperties ["a"] ["a", "b"] = (["a", "b"], false) :=
  ⟨(schema_registry_monotone [] [] ["a"] ["a"] ["a", "b"]).2.2.1
      (by decide) (by simp),
   (schema_registry_monotone [] [] ["a"] ["a"] ["a", "b"]).2.2.2 (by decide)⟩

end VDMS
